import Mathlib

/-!
Verification of the NOMAD threat-intelligence SQLite cache layer
(`src/cache/database.py` together with the record types of
`src/cache/models.py`).

The embedding models the SQLite tables as Lean lists of row structures and
each `CacheDatabase` method as a pure function on an explicit database
state.  Timestamps are modelled as natural numbers (seconds); SQLite stores
them as ISO-8601 text and compares them as strings, which agrees with
chronological order for the fixed `isoformat` layout, so `Nat` comparison is
a faithful image of the `TEXT` comparisons in the SQL.  `REAL` columns are
modelled as exact rationals: none of the verified properties depend on
floating-point rounding, only on order comparisons between stored values
and literals.  Python's `json.dumps` of a list of strings is modelled by
`jsonDumps` (quote-and-backslash escaping; control-character and non-ASCII
escapes are not needed for the properties below) and `json.loads` on such
serialized values by the parser `jsonLoads`.  `CURRENT_TIMESTAMP` and
`datetime.utcnow()` are modelled by an explicit `now : Nat` argument to
each operation that reads the clock.
-/

/-- Python's `x or default` for strings: the empty string is falsy. -/
def pyOrStr (x d : String) : String := if x = "" then d else x

/-- Python's `x or default` for integer columns: `0` is falsy. -/
def pyOrInt (x d : Int) : Int := if x = 0 then d else x

/-- Python's `x or default` for real columns: `0.0` is falsy. -/
def pyOrRat (x d : Rat) : Rat := if x = 0 then d else x

/-- JSON escaping of one character as done by `json.dumps` for the string
content relevant here: a double quote or backslash is prefixed with a
backslash, every other character is emitted verbatim. -/
def escChar (c : Char) : List Char :=
  if c = '"' ∨ c = '\\' then ['\\', c] else [c]

/-- JSON escaping of a whole string body. -/
def jsonEscape : List Char → List Char
  | [] => []
  | c :: cs => escChar c ++ jsonEscape cs

/-- The comma-separated element section of `json.dumps` of a list of
strings (Python's default separator is a comma followed by a space). -/
def dumpsElems : List (List Char) → List Char
  | [] => []
  | [s] => '"' :: (jsonEscape s ++ ['"'])
  | s :: rest => '"' :: (jsonEscape s ++ ['"', ',', ' '] ++ dumpsElems rest)

/-- Model of Python `json.dumps` on a list of strings, e.g.
`jsonDumps ["a", "b"] = "[\x22a\x22, \x22b\x22]"`.  Only the quote and
backslash escapes are modelled; Python additionally escapes control
characters and (with the default `ensure_ascii`) non-ASCII characters as
`\uXXXX`, so for such content the modelled serialized bytes differ from
the program's.  No theorem below depends on the serialized byte form of
control or non-ASCII characters: the round-trip results only need
`jsonLoads` to invert `jsonDumps` (which also holds of the Python pair),
and the query results treat the stored column text opaquely. -/
def jsonDumps (l : List String) : String :=
  match l with
  | [] => "[]"
  | _ => ⟨'[' :: (dumpsElems (l.map String.data) ++ [']'])⟩

/-- Character-level parser for the body of a serialized string list: the
head of the input is positioned just after an opening quote; `cur` is the
content of the string element being read and `out` the completed elements. -/
def jsonParse : List Char → List Char → List (List Char) → Option (List (List Char))
  | [], _, _ => none
  | '\\' :: [], _, _ => none
  | '\\' :: d :: cs, cur, out => jsonParse cs (cur ++ [d]) out
  | '"' :: ']' :: [], cur, out => some (out ++ [cur])
  | '"' :: ',' :: ' ' :: '"' :: cs, cur, out => jsonParse cs [] (out ++ [cur])
  | '"' :: _, _, _ => none
  | c :: cs, cur, out => jsonParse cs (cur ++ [c]) out

theorem jsonParse_esc (d : Char) (cs cur : List Char) (out : List (List Char)) :
    jsonParse ('\\' :: d :: cs) cur out = jsonParse cs (cur ++ [d]) out := by
  simp [jsonParse]

theorem jsonParse_close (cur : List Char) (out : List (List Char)) :
    jsonParse ('"' :: ']' :: []) cur out = some (out ++ [cur]) := by
  simp [jsonParse]

theorem jsonParse_comma (cs cur : List Char) (out : List (List Char)) :
    jsonParse ('"' :: ',' :: ' ' :: '"' :: cs) cur out = jsonParse cs [] (out ++ [cur]) := by
  simp [jsonParse]

theorem jsonParse_plain (c : Char) (cs cur : List Char) (out : List (List Char))
    (hb : c ≠ '\\') (hq : c ≠ '"') :
    jsonParse (c :: cs) cur out = jsonParse cs (cur ++ [c]) out := by
  cases cs with
  | nil => simp [jsonParse, hb, hq]
  | cons e es => simp [jsonParse, hb, hq]

/-- Model of Python `json.loads` on values produced by `jsonDumps`
(a JSON array of strings); malformed input yields `none`. -/
def jsonLoads (s : String) : Option (List String) :=
  match s.data with
  | '[' :: ']' :: [] => some []
  | '[' :: '"' :: cs => (jsonParse cs [] []).map (List.map String.mk)
  | _ => none

/-- The separator-and-remaining-elements section after one serialized
string element. -/
def dumpsSep : List (List Char) → List Char
  | [] => []
  | xs => ',' :: ' ' :: dumpsElems xs

/-- The serialized form of one element together with everything that
follows it inside the brackets. -/
def dumpsBody (x : List Char) (t : List (List Char)) : List Char :=
  jsonEscape x ++ '"' :: dumpsSep t

theorem dumpsElems_cons (x : List Char) (t : List (List Char)) :
    dumpsElems (x :: t) = '"' :: dumpsBody x t := by
  cases t <;> simp [dumpsElems, dumpsBody, dumpsSep]

theorem jsonParse_escape (s : List Char) : ∀ (k cur : List Char) (out : List (List Char)),
    jsonParse (jsonEscape s ++ '"' :: k) cur out = jsonParse ('"' :: k) (cur ++ s) out := by
  induction s with
  | nil => intro k cur out; simp [jsonEscape]
  | cons c cs ih =>
    intro k cur out
    by_cases hq : c = '"'
    · subst hq
      have hesc : jsonEscape ('"' :: cs) = '\\' :: '"' :: jsonEscape cs := by
        simp [jsonEscape, escChar]
      rw [hesc]
      simp only [List.cons_append]
      rw [jsonParse_esc, ih]
      simp
    · by_cases hb : c = '\\'
      · subst hb
        have hesc : jsonEscape ('\\' :: cs) = '\\' :: '\\' :: jsonEscape cs := by
          simp [jsonEscape, escChar]
        rw [hesc]
        simp only [List.cons_append]
        rw [jsonParse_esc, ih]
        simp
      · have hesc : jsonEscape (c :: cs) = c :: jsonEscape cs := by
          simp [jsonEscape, escChar, hq, hb]
        rw [hesc]
        simp only [List.cons_append]
        rw [jsonParse_plain c _ _ _ hb hq, ih]
        simp

theorem jsonParse_dumpsBody : ∀ (t : List (List Char)) (x : List Char) (acc : List (List Char)),
    jsonParse (dumpsBody x t ++ [']']) [] acc = some (acc ++ x :: t) := by
  intro t
  induction t with
  | nil =>
    intro x acc
    have hshape : (dumpsBody x [] ++ [']'] : List Char) = jsonEscape x ++ '"' :: [']'] := by
      simp [dumpsBody, dumpsSep]
    rw [hshape, jsonParse_escape]
    rw [jsonParse_close]
    simp
  | cons y ys ih =>
    intro x acc
    have hshape : (dumpsBody x (y :: ys) ++ [']'] : List Char)
        = jsonEscape x ++ '"' :: (',' :: ' ' :: '"' :: (dumpsBody y ys ++ [']'])) := by
      simp [dumpsBody, dumpsSep, dumpsElems_cons]
    rw [hshape, jsonParse_escape]
    rw [jsonParse_comma]
    rw [ih]
    simp

/-- `jsonLoads` inverts `jsonDumps`. -/
theorem jsonLoads_dumps (l : List String) : jsonLoads (jsonDumps l) = some l := by
  cases l with
  | nil => rfl
  | cons x xs =>
    have hdata : (jsonDumps (x :: xs)).data
        = '[' :: '"' :: (dumpsBody x.data (xs.map String.data) ++ [']']) := by
      simp [jsonDumps, dumpsElems_cons]
    rw [jsonLoads, hdata]
    change Option.map (List.map String.mk)
        (jsonParse (dumpsBody x.data (xs.map String.data) ++ [']']) [] []) = some (x :: xs)
    rw [jsonParse_dumpsBody]
    have hmk : ∀ s : String, String.mk s.data = s := fun s => by cases s; rfl
    simp [hmk, Function.comp_def]

/-- ASCII lower-casing as used by SQLite's default `LIKE` comparison. -/
def lowerAscii (c : Char) : Char :=
  if 'A' ≤ c ∧ c ≤ 'Z' then Char.ofNat (c.toNat + 32) else c

/-- SQLite's default `LIKE` character comparison: ASCII-case-insensitive. -/
def charEqCI (a b : Char) : Bool := lowerAscii a = lowerAscii b

/-- SQLite `LIKE` pattern matching: a percent sign matches any sequence of
characters, an underscore matches exactly one character, and every other
pattern character matches one text character ASCII-case-insensitively. -/
def likeMatch : List Char → List Char → Bool
  | [], [] => true
  | [], _ :: _ => false
  | '%' :: ps, s => (List.range (s.length + 1)).any (fun k => likeMatch ps (s.drop k))
  | '_' :: _, [] => false
  | '_' :: ps, _ :: cs => likeMatch ps cs
  | _ :: _, [] => false
  | p :: ps, c :: cs => charEqCI p c && likeMatch ps cs

/-- SQLite `expr LIKE pattern` on strings. -/
def sqlLike (pattern text : String) : Bool := likeMatch pattern.data text.data

/-- Whether the needle occurs as a prefix of the haystack (exact characters). -/
def litPrefixOf : List Char → List Char → Bool
  | [], _ => true
  | _ :: _, [] => false
  | a :: as, b :: bs => a = b && litPrefixOf as bs

/-- Whether the needle occurs as a contiguous substring of the haystack. -/
def hasSub (n : List Char) : List Char → Bool
  | [] => litPrefixOf n []
  | c :: cs => litPrefixOf n (c :: cs) || hasSub n cs

/-- The `ThreatRecord` dataclass of `src/cache/models.py`. -/
structure ThreatRecord where
  id : String
  source_type : String
  source_name : String
  source_url : String
  title : String
  summary : String
  published_utc : Nat
  collected_utc : Nat
  cves : List String := []
  cvss_v3 : Option Rat := none
  epss_score : Option Rat := none
  epss_percentile : Option Rat := none
  kev_listed : Bool := false
  exploit_status : Option String := none
  admiralty_source_reliability : String := "C"
  admiralty_info_credibility : Int := 3
  priority_level : String := "medium"
  risk_score : Rat := 0
  verification_confidence : Option Rat := none
  verification_method : Option String := none
  verification_timestamp : Option Nat := none
  affected_crown_jewels : List String := []
  asset_exposure_match : List String := []
  dedupe_key : String := ""
  search_content : String := ""
deriving DecidableEq

/-- One row of the `threats` table.  The three JSON-array columns hold the
serialized `TEXT` produced by `json.dumps`; `kev_listed` holds the stored
`INTEGER`; `created_at` and `updated_at` hold the `CURRENT_TIMESTAMP`
values written by the schema default and by `upsert_threat`. -/
structure ThreatRow where
  id : String
  source_type : String
  source_name : String
  source_url : String
  title : String
  summary : String
  published_utc : Nat
  collected_utc : Nat
  cves : String
  cvss_v3 : Option Rat
  epss_score : Option Rat
  epss_percentile : Option Rat
  kev_listed : Int
  exploit_status : Option String
  admiralty_source_reliability : String
  admiralty_info_credibility : Int
  priority_level : String
  risk_score : Rat
  verification_confidence : Option Rat
  verification_method : Option String
  verification_timestamp : Option Nat
  affected_crown_jewels : String
  asset_exposure_match : String
  dedupe_key : String
  created_at : Nat
  updated_at : Nat
deriving DecidableEq

/-- One row of the `threats_fts` FTS5 shadow index: the indexed columns
`(id, title, summary, cves, source_name)` plus the content rowid. -/
structure FtsEntry where
  rowid : Nat
  id : String
  title : String
  summary : String
  cves : String
  source_name : String
deriving DecidableEq

/-- The `CVERecord` dataclass of `src/cache/models.py`. -/
structure CVERecord where
  cve_id : String
  cvss_v3_score : Option Rat := none
  cvss_v3_vector : Option String := none
  cvss_v4_score : Option Rat := none
  epss_score : Option Rat := none
  epss_percentile : Option Rat := none
  kev_listed : Bool := false
  kev_date_added : Option Nat := none
  kev_due_date : Option Nat := none
  description : String := ""
  affected_products : List String := []
  references : List String := []
  published_date : Option Nat := none
  last_modified : Option Nat := none
  cached_at : Nat
  cache_expires : Option Nat := none
deriving DecidableEq

/-- One row of the `cve_cache` table. -/
structure CveRow where
  cve_id : String
  cvss_v3_score : Option Rat
  cvss_v3_vector : Option String
  cvss_v4_score : Option Rat
  epss_score : Option Rat
  epss_percentile : Option Rat
  kev_listed : Int
  kev_date_added : Option Nat
  kev_due_date : Option Nat
  description : String
  affected_products : String
  references_json : String
  published_date : Option Nat
  last_modified : Option Nat
  cached_at : Nat
  cache_expires : Option Nat
deriving DecidableEq

/-- One row of the `verification_cache` table (only written externally;
this engine reads and expires it). -/
structure VerifRow where
  threat_id : String
  verified : Int
  confidence_score : Rat
  verification_method : Option String
  sources_consulted : String
  nvd_match : Int
  cisa_kev_match : Int
  vendor_advisory_match : Int
  web_sources_count : Int
  verified_at : Nat
  cache_expires : Option Nat
  cost_usd : Rat
deriving DecidableEq

/-- One row of the `feed_metrics` table. -/
structure FeedRow where
  feed_url : String
  feed_name : String
  last_check : Option Nat
  last_success : Option Nat
  response_time_ms : Int
  http_status : Int
  error_count_24h : Int
  items_collected_24h : Int
  items_collected_7d : Int
  security_relevance_score : Rat
  duplicate_rate : Rat
  avg_cves_per_item : Rat
  accessibility_score : Rat
  relevance_score : Rat
  timeliness_score : Rat
  uniqueness_score : Rat
  overall_score : Rat
deriving DecidableEq

/-- The whole database file: the four tables plus the FTS5 shadow index.
`threats` rows are paired with their SQLite rowid, which the FTS
synchronization triggers use; `nextRowid` is the rowid SQLite will assign
to the next inserted threat row. -/
structure DBState where
  threats : List (Nat × ThreatRow)
  nextRowid : Nat
  fts : List FtsEntry
  cve_cache : List CveRow
  verification_cache : List VerifRow
  feed_metrics : List FeedRow
deriving DecidableEq

/-- A freshly initialized database (`_init_db` on a new file). -/
def emptyDB : DBState :=
  { threats := [], nextRowid := 1, fts := [], cve_cache := [],
    verification_cache := [], feed_metrics := [] }

/-- The FTS index entry the triggers derive from a `threats` row:
`(rowid, id, title, summary, cves, source_name)`. -/
def entryOfRow (x : Nat × ThreatRow) : FtsEntry :=
  { rowid := x.1, id := x.2.id, title := x.2.title, summary := x.2.summary,
    cves := x.2.cves, source_name := x.2.source_name }

/-- The row written by the `INSERT` arm of `upsert_threat`: every column is
bound from the record (timestamps via `isoformat`, lists via `json.dumps`,
the boolean as `1/0`), `updated_at` is bound to `CURRENT_TIMESTAMP` and
`created_at` comes from the column default `CURRENT_TIMESTAMP`. -/
def newThreatRow (t : ThreatRecord) (now : Nat) : ThreatRow :=
  { id := t.id, source_type := t.source_type, source_name := t.source_name,
    source_url := t.source_url, title := t.title, summary := t.summary,
    published_utc := t.published_utc, collected_utc := t.collected_utc,
    cves := jsonDumps t.cves, cvss_v3 := t.cvss_v3,
    epss_score := t.epss_score, epss_percentile := t.epss_percentile,
    kev_listed := if t.kev_listed then 1 else 0,
    exploit_status := t.exploit_status,
    admiralty_source_reliability := t.admiralty_source_reliability,
    admiralty_info_credibility := t.admiralty_info_credibility,
    priority_level := t.priority_level, risk_score := t.risk_score,
    verification_confidence := t.verification_confidence,
    verification_method := t.verification_method,
    verification_timestamp := t.verification_timestamp,
    affected_crown_jewels := jsonDumps t.affected_crown_jewels,
    asset_exposure_match := jsonDumps t.asset_exposure_match,
    dedupe_key := t.dedupe_key,
    created_at := now, updated_at := now }

/-- The row produced by the `ON CONFLICT(id) DO UPDATE SET` arm of
`upsert_threat`: exactly the columns listed in the `SET` clause are taken
from `excluded` (the new record); `published_utc`, `collected_utc`,
`admiralty_source_reliability`, `admiralty_info_credibility`,
`dedupe_key` and `created_at` are not in the `SET` list and keep their
stored values; `updated_at` is set to `CURRENT_TIMESTAMP`. -/
def updThreatRow (old : ThreatRow) (t : ThreatRecord) (now : Nat) : ThreatRow :=
  { old with
    source_type := t.source_type, source_name := t.source_name,
    source_url := t.source_url, title := t.title, summary := t.summary,
    cves := jsonDumps t.cves, cvss_v3 := t.cvss_v3,
    epss_score := t.epss_score, epss_percentile := t.epss_percentile,
    kev_listed := if t.kev_listed then 1 else 0,
    exploit_status := t.exploit_status,
    priority_level := t.priority_level, risk_score := t.risk_score,
    verification_confidence := t.verification_confidence,
    verification_method := t.verification_method,
    verification_timestamp := t.verification_timestamp,
    affected_crown_jewels := jsonDumps t.affected_crown_jewels,
    asset_exposure_match := jsonDumps t.asset_exposure_match,
    updated_at := now }

/-- The `threats` row with a given primary-key value, if any. -/
def findRow (i : String) (st : DBState) : Option (Nat × ThreatRow) :=
  st.threats.find? (fun x => x.2.id = i)

/-- `CacheDatabase.upsert_threat`.  The `INSERT ... ON CONFLICT(id) DO
UPDATE` statement either appends a fresh row (firing the `threats_ai`
trigger, which adds the FTS entry) or updates the conflicting row in place
(firing the `threats_au` trigger, which removes the old FTS entry by its
old values and inserts the new one). -/
def upsertThreat (t : ThreatRecord) (now : Nat) (st : DBState) : DBState :=
  match findRow t.id st with
  | none =>
    { st with
      threats := st.threats ++ [(st.nextRowid, newThreatRow t now)],
      nextRowid := st.nextRowid + 1,
      fts := st.fts ++ [entryOfRow (st.nextRowid, newThreatRow t now)] }
  | some (rid, old) =>
    { st with
      threats := st.threats.map
        (fun x => if x.2.id = t.id then (x.1, updThreatRow old t now) else x),
      fts := st.fts.erase (entryOfRow (rid, old)) ++ [entryOfRow (rid, updThreatRow old t now)] }

/-- A raw `DELETE FROM threats WHERE id = ?`.  The engine itself never
deletes threat rows, but the `threats_ad` trigger exists for exactly this
mutation: each deleted row's FTS entry is removed by its old values. -/
def deleteThreat (i : String) (st : DBState) : DBState :=
  match findRow i st with
  | none => st
  | some (rid, old) =>
    { st with
      threats := st.threats.filter (fun x => ¬x.2.id = i),
      fts := st.fts.erase (entryOfRow (rid, old)) }

/-- `CacheDatabase._row_to_threat`: realize a `threats` row as a
`ThreatRecord`, applying the Python `or`-defaults and `json.loads` exactly
as the source does.  The `search_content` field is not read back and keeps
the dataclass default. -/
def rowToThreat (row : ThreatRow) : ThreatRecord :=
  { id := row.id, source_type := row.source_type, source_name := row.source_name,
    source_url := pyOrStr row.source_url "",
    title := row.title, summary := pyOrStr row.summary "",
    published_utc := row.published_utc, collected_utc := row.collected_utc,
    cves := if row.cves = "" then [] else (jsonLoads row.cves).getD [],
    cvss_v3 := row.cvss_v3, epss_score := row.epss_score,
    epss_percentile := row.epss_percentile,
    kev_listed := row.kev_listed ≠ 0,
    exploit_status := row.exploit_status,
    admiralty_source_reliability := pyOrStr row.admiralty_source_reliability "C",
    admiralty_info_credibility := pyOrInt row.admiralty_info_credibility 3,
    priority_level := pyOrStr row.priority_level "medium",
    risk_score := pyOrRat row.risk_score 0,
    verification_confidence := row.verification_confidence,
    verification_method := row.verification_method,
    verification_timestamp := row.verification_timestamp,
    affected_crown_jewels :=
      if row.affected_crown_jewels = "" then [] else (jsonLoads row.affected_crown_jewels).getD [],
    asset_exposure_match :=
      if row.asset_exposure_match = "" then [] else (jsonLoads row.asset_exposure_match).getD [],
    dedupe_key := pyOrStr row.dedupe_key "" }

/-- `CacheDatabase.get_threat`: point lookup by primary key. -/
def getThreat (i : String) (st : DBState) : Option ThreatRecord :=
  (findRow i st).map (fun x => rowToThreat x.2)

/-- The row set produced by `search_threats`' join, for an arbitrary FTS5
`MATCH` semantics `p` (FTS5 matching is a function of the indexed entry
values only): `SELECT t.* FROM threats t JOIN threats_fts fts ON t.id =
fts.id WHERE threats_fts MATCH ?`.  The relevance ordering (`ORDER BY
rank`) and the `LIMIT` presentation of the result list are not modelled;
hit counting is order-independent. -/
def searchHits (p : FtsEntry → Bool) (st : DBState) : List ThreatRow :=
  st.threats.flatMap
    (fun x => (st.fts.filter (fun e => e.id = x.2.id && p e)).map (fun _ => x.2))

/-- Number of full-text hits that realize the record with identifier `i`. -/
def countHits (p : FtsEntry → Bool) (i : String) (st : DBState) : Nat :=
  (searchHits p st).countP (fun t => t.id = i)

/-- The `ORDER BY risk_score DESC, published_utc DESC` comparison: `a`
may precede `b` iff `a` has higher risk, or equal risk and no earlier
published timestamp. -/
def prioOrder (a b : ThreatRow) : Prop :=
  b.risk_score < a.risk_score ∨ (a.risk_score = b.risk_score ∧ b.published_utc ≤ a.published_utc)

instance : DecidableRel prioOrder := fun _ _ =>
  inferInstanceAs (Decidable (_ ∨ _))

instance : IsTotal ThreatRow prioOrder where
  total a b := by
    rcases lt_trichotomy a.risk_score b.risk_score with h | h | h
    · exact Or.inr (Or.inl h)
    · rcases Nat.le_total b.published_utc a.published_utc with hp | hp
      · exact Or.inl (Or.inr ⟨h, hp⟩)
      · exact Or.inr (Or.inr ⟨h.symm, hp⟩)
    · exact Or.inl (Or.inl h)

instance : IsTrans ThreatRow prioOrder where
  trans a b c hab hbc := by
    rcases hab with h1 | ⟨h1, hp1⟩
    · rcases hbc with h2 | ⟨h2, _⟩
      · exact Or.inl (h2.trans h1)
      · exact Or.inl (h2 ▸ h1)
    · rcases hbc with h2 | ⟨h2, hp2⟩
      · exact Or.inl (h1 ▸ h2)
      · exact Or.inr ⟨h1.trans h2, hp2.trans hp1⟩

/-- The `ORDER BY published_utc DESC` comparison used by
`get_kev_threats`. -/
def pubOrder (a b : ThreatRow) : Prop := b.published_utc ≤ a.published_utc

instance : DecidableRel pubOrder := fun _ _ =>
  inferInstanceAs (Decidable (_ ≤ _))

instance : IsTotal ThreatRow pubOrder where
  total a b := Nat.le_total b.published_utc a.published_utc

instance : IsTrans ThreatRow pubOrder where
  trans _ _ _ hab hbc := hbc.trans hab

/-- `CacheDatabase.get_threats_by_priority`: filter on priority (when
given) and on the recency window `published_utc >= utcnow() - since_hours`,
order by risk descending then published descending, truncate to `limit`,
and realize the rows. -/
def getThreatsByPriority (priority : Option String) (limit : Nat) (since_hours : Nat)
    (now : Nat) (st : DBState) : List ThreatRecord :=
  let since := now - since_hours * 3600
  let rows := (st.threats.map Prod.snd).filter
    (fun t => (match priority with
               | some p => t.priority_level = p
               | none => true) && decide (since ≤ t.published_utc))
  ((List.insertionSort prioOrder rows).take limit).map rowToThreat

/-- `CacheDatabase.get_kev_threats`: `WHERE kev_listed = 1 ORDER BY
published_utc DESC LIMIT ?`. -/
def getKevThreats (limit : Nat) (st : DBState) : List ThreatRecord :=
  let rows := (st.threats.map Prod.snd).filter (fun t => t.kev_listed = 1)
  ((List.insertionSort pubOrder rows).take limit).map rowToThreat

/-- The `LIKE` pattern built from one crown-jewel label:
`'%"' + cj + '"%'`. -/
def cjPattern (cj : String) : String := "%\"" ++ cj ++ "\"%"

/-- `CacheDatabase.get_threats_affecting_crown_jewels`: rows whose
serialized `affected_crown_jewels` column matches any of the per-label
`LIKE` patterns, ordered like the priority query and truncated to `limit`.
(The original builds the `OR` chain textually; for an empty label list it
would emit malformed SQL and raise, so this model is used with at least
one label.) -/
def getThreatsAffectingCrownJewels (crown_jewels : List String) (limit : Nat)
    (st : DBState) : List ThreatRecord :=
  let rows := (st.threats.map Prod.snd).filter
    (fun t => crown_jewels.any (fun cj => sqlLike (cjPattern cj) t.affected_crown_jewels))
  ((List.insertionSort prioOrder rows).take limit).map rowToThreat

/-- The dictionary returned by `get_threat_stats`. -/
structure ThreatStats where
  critical_count : Nat
  high_count : Nat
  medium_count : Nat
  low_count : Nat
  watchlist_count : Nat
  kev_count : Nat
  high_epss_count : Nat
  total_count : Nat
deriving DecidableEq

/-- The SQL literal `0.7` of the `epss_score >= 0.7` filter in
`get_threat_stats`, as the exact rational seven tenths. -/
def epssThreshold : Rat := ⟨7, 10, by decide, by decide⟩

theorem epssThreshold_eq : epssThreshold = 7 / 10 := by
  rw [epssThreshold, Rat.mk'_eq_divInt, Rat.divInt_eq_div]
  norm_num

/-- `CacheDatabase.get_threat_stats`: per-priority counts, KEV count, the
`epss_score >= 0.7` count and the total count, all restricted to the
window `published_utc >= utcnow() - since_hours`.  `NULL` epss scores fail
the SQL comparison and are not counted. -/
def statsPrioCount (p : String) (since : Nat) (st : DBState) : Nat :=
  st.threats.countP (fun x => x.2.priority_level = p && decide (since ≤ x.2.published_utc))

def getThreatStats (since_hours : Nat) (now : Nat) (st : DBState) : ThreatStats :=
  { critical_count := statsPrioCount "critical" (now - since_hours * 3600) st,
    high_count := statsPrioCount "high" (now - since_hours * 3600) st,
    medium_count := statsPrioCount "medium" (now - since_hours * 3600) st,
    low_count := statsPrioCount "low" (now - since_hours * 3600) st,
    watchlist_count := statsPrioCount "watchlist" (now - since_hours * 3600) st,
    kev_count := st.threats.countP
      (fun x => x.2.kev_listed = 1 && decide (now - since_hours * 3600 ≤ x.2.published_utc)),
    high_epss_count := st.threats.countP
      (fun x => (match x.2.epss_score with
                 | some v => decide (epssThreshold ≤ v)
                 | none => false) && decide (now - since_hours * 3600 ≤ x.2.published_utc)),
    total_count := st.threats.countP
      (fun x => decide (now - since_hours * 3600 ≤ x.2.published_utc)) }

/-- The row written by the `INSERT` arm of `cache_cve`; `cached_at` comes
from the column default `CURRENT_TIMESTAMP`, `cache_expires` is
`utcnow() + ttl_hours`. -/
def newCveRow (c : CVERecord) (ttl_hours : Nat) (now : Nat) : CveRow :=
  { cve_id := c.cve_id, cvss_v3_score := c.cvss_v3_score,
    cvss_v3_vector := c.cvss_v3_vector, cvss_v4_score := c.cvss_v4_score,
    epss_score := c.epss_score, epss_percentile := c.epss_percentile,
    kev_listed := if c.kev_listed then 1 else 0,
    kev_date_added := c.kev_date_added, kev_due_date := c.kev_due_date,
    description := c.description,
    affected_products := jsonDumps c.affected_products,
    references_json := jsonDumps c.references,
    published_date := c.published_date, last_modified := c.last_modified,
    cached_at := now, cache_expires := some (now + ttl_hours * 3600) }

/-- The row produced by the `ON CONFLICT(cve_id) DO UPDATE SET` arm of
`cache_cve`: the `SET` list omits `kev_date_added`, `kev_due_date`,
`published_date` and `last_modified`, which keep their stored values. -/
def updCveRow (old : CveRow) (c : CVERecord) (ttl_hours : Nat) (now : Nat) : CveRow :=
  { old with
    cvss_v3_score := c.cvss_v3_score, cvss_v3_vector := c.cvss_v3_vector,
    cvss_v4_score := c.cvss_v4_score, epss_score := c.epss_score,
    epss_percentile := c.epss_percentile,
    kev_listed := if c.kev_listed then 1 else 0,
    description := c.description,
    affected_products := jsonDumps c.affected_products,
    references_json := jsonDumps c.references,
    cached_at := now, cache_expires := some (now + ttl_hours * 3600) }

/-- `CacheDatabase.cache_cve`. -/
def cacheCve (c : CVERecord) (ttl_hours : Nat) (now : Nat) (st : DBState) : DBState :=
  match st.cve_cache.find? (fun r => r.cve_id = c.cve_id) with
  | none => { st with cve_cache := st.cve_cache ++ [newCveRow c ttl_hours now] }
  | some _ =>
    { st with
      cve_cache := st.cve_cache.map
        (fun r => if r.cve_id = c.cve_id then updCveRow r c ttl_hours now else r) }

/-- The `CVERecord` constructed by `get_cve` from a row: only the columns
listed in the constructor call are read back; `kev_date_added`,
`kev_due_date`, `published_date`, `last_modified` and `cache_expires` keep
the dataclass default `None`, and `cached_at` comes from the
`default_factory=datetime.utcnow` evaluated at read time. -/
def cveRowToRecord (row : CveRow) (now : Nat) : CVERecord :=
  { cve_id := row.cve_id, cvss_v3_score := row.cvss_v3_score,
    cvss_v3_vector := row.cvss_v3_vector, cvss_v4_score := row.cvss_v4_score,
    epss_score := row.epss_score, epss_percentile := row.epss_percentile,
    kev_listed := row.kev_listed ≠ 0,
    description := pyOrStr row.description "",
    affected_products :=
      if row.affected_products = "" then [] else (jsonLoads row.affected_products).getD [],
    references :=
      if row.references_json = "" then [] else (jsonLoads row.references_json).getD [],
    cached_at := now }

/-- `CacheDatabase.get_cve`: the row is returned only when
`cache_expires` is unset or strictly later than `utcnow()`; an expired row
is left in place and treated as absent. -/
def getCve (i : String) (now : Nat) (st : DBState) : Option CVERecord :=
  match st.cve_cache.find? (fun r => r.cve_id = i) with
  | none => none
  | some row =>
    if (match row.cache_expires with
        | none => true
        | some e => decide (now < e)) then some (cveRowToRecord row now)
    else none

/-- SQL `cache_expires < now` on a nullable column: `NULL` compares as
unknown and the row is not deleted. -/
def expiredBefore (e : Option Nat) (now : Nat) : Bool :=
  match e with
  | none => false
  | some e => e < now

/-- `CacheDatabase.cleanup_expired`: delete the `cve_cache` and
`verification_cache` rows whose expiry is strictly before `utcnow()`;
no other table is touched. -/
def cleanupExpired (now : Nat) (st : DBState) : DBState :=
  { st with
    cve_cache := st.cve_cache.filter (fun r => ¬expiredBefore r.cache_expires now = true),
    verification_cache :=
      st.verification_cache.filter (fun r => ¬expiredBefore r.cache_expires now = true) }

/-- One mutation of the `threats` table: an `upsert_threat` call (insert
or update) or a raw row deletion. -/
inductive DBOp where
  | upsert (t : ThreatRecord) (now : Nat)
  | del (i : String)

/-- Apply one threat-table mutation. -/
def applyOp (st : DBState) : DBOp → DBState
  | DBOp.upsert t now => upsertThreat t now st
  | DBOp.del i => deleteThreat i st

/-- Apply a sequence of threat-table mutations in order. -/
def applyOps (ops : List DBOp) (st : DBState) : DBState :=
  ops.foldl applyOp st

/-- The FTS synchronization invariant: the shadow index holds exactly the
derived entries of the primary rows (as a multiset), and primary keys are
unique. -/
def FtsInv (st : DBState) : Prop :=
  st.fts.Perm (st.threats.map entryOfRow) ∧ (st.threats.map (fun x => x.2.id)).Nodup

theorem find?_map_replace (i : String) (r : ThreatRow) (hr : r.id = i) :
    ∀ (l : List (Nat × ThreatRow)) (rid : Nat) (old : ThreatRow),
      l.find? (fun x => x.2.id = i) = some (rid, old) →
      (l.map (fun x => if x.2.id = i then (x.1, r) else x)).find? (fun x => x.2.id = i)
        = some (rid, r) := by
  intro l
  induction l with
  | nil => intro rid old h; simp at h
  | cons x xs ih =>
    intro rid old h
    by_cases hx : x.2.id = i
    · rw [List.find?_cons_of_pos xs (by simpa using hx)] at h
      cases h
      simp only [List.map_cons, if_pos hx]
      rw [List.find?_cons_of_pos _ (by simpa using hr)]
    · rw [List.find?_cons_of_neg xs (by simpa using hx)] at h
      simp only [List.map_cons, if_neg hx]
      rw [List.find?_cons_of_neg _ (by simpa using hx)]
      exact ih rid old h

/-- C1: for a `ThreatRecord` whose id is already stored, `upsert_threat`
does NOT overwrite every field: the `ON CONFLICT ... DO UPDATE SET` list
omits `published_utc`, `collected_utc`, `admiralty_source_reliability`,
`admiralty_info_credibility` and `dedupe_key`, so those keep their stored
values; the amended statement proved here is that exactly the listed
columns are overwritten with the new record's values, `created_at` and the
five omitted columns are unchanged, and `updated_at` is refreshed to the
write time. -/
theorem upsert_conflict_fields (st : DBState) (t : ThreatRecord) (now : Nat)
    (rid : Nat) (old : ThreatRow) (h : findRow t.id st = some (rid, old)) :
    findRow t.id (upsertThreat t now st) = some (rid,
      { old with
        source_type := t.source_type, source_name := t.source_name,
        source_url := t.source_url, title := t.title, summary := t.summary,
        cves := jsonDumps t.cves, cvss_v3 := t.cvss_v3,
        epss_score := t.epss_score, epss_percentile := t.epss_percentile,
        kev_listed := if t.kev_listed then 1 else 0,
        exploit_status := t.exploit_status,
        priority_level := t.priority_level, risk_score := t.risk_score,
        verification_confidence := t.verification_confidence,
        verification_method := t.verification_method,
        verification_timestamp := t.verification_timestamp,
        affected_crown_jewels := jsonDumps t.affected_crown_jewels,
        asset_exposure_match := jsonDumps t.asset_exposure_match,
        updated_at := now }) := by
  have hid : old.id = t.id := by
    have := List.find?_some h
    simpa using this
  unfold upsertThreat
  rw [h]
  show (st.threats.map _).find? _ = _
  exact find?_map_replace t.id (updThreatRow old t now) (by simp [updThreatRow, hid])
    st.threats rid old h

/-- A sample threat record (first write). -/
def sampleThreatA : ThreatRecord :=
  { id := "t1", source_type := "rss", source_name := "feed", source_url := "http://a",
    title := "Alpha advisory", summary := "first", published_utc := 100, collected_utc := 101,
    cves := ["CVE-2024-1234"], risk_score := 9, kev_listed := true,
    priority_level := "critical", dedupe_key := "k0", epss_score := some 1,
    admiralty_source_reliability := "A", admiralty_info_credibility := 2 }

/-- The same threat re-observed: same id, every re-writable and every
non-re-writable field changed. -/
def sampleThreatB : ThreatRecord :=
  { id := "t1", source_type := "vendor", source_name := "feed2", source_url := "http://b",
    title := "Beta advisory", summary := "second", published_utc := 200, collected_utc := 201,
    cves := ["CVE-2024-9999"], risk_score := 7, kev_listed := false,
    priority_level := "high", dedupe_key := "k1", epss_score := some 0,
    admiralty_source_reliability := "B", admiralty_info_credibility := 5 }

/-- C1 counterexample: after re-upserting `t1` with changed
`published_utc`, `collected_utc`, admiralty ratings and `dedupe_key`, the
stored row still carries the ORIGINAL values of those five columns, so the
claim that every field except `created_at` is overwritten is false at this
input. -/
theorem upsert_conflict_cex :
    (findRow "t1" (upsertThreat sampleThreatB 9 (upsertThreat sampleThreatA 5 emptyDB))).map
        (fun x => (x.2.dedupe_key, x.2.published_utc, x.2.collected_utc,
                   x.2.admiralty_source_reliability, x.2.admiralty_info_credibility))
      = some ("k0", 100, 101, "A", 2) ∧
    sampleThreatB.dedupe_key = "k1" ∧ sampleThreatB.published_utc = 200 ∧
    sampleThreatB.collected_utc = 201 ∧
    sampleThreatB.admiralty_source_reliability = "B" ∧
    sampleThreatB.admiralty_info_credibility = 5 := by
  decide

/-- C1 witness: the amended conflict behaviour evaluated at a concrete
state. -/
theorem upsert_conflict_witness :
    (findRow "t1" (upsertThreat sampleThreatB 9 (upsertThreat sampleThreatA 5 emptyDB))).map
        (fun x => (x.2.title, x.2.risk_score, x.2.updated_at, x.2.created_at, x.2.dedupe_key))
      = some ("Beta advisory", 7, 9, 5, "k0") := by
  have h : findRow "t1" (upsertThreat sampleThreatB 9 (upsertThreat sampleThreatA 5 emptyDB))
      = some (1, updThreatRow (newThreatRow sampleThreatA 5) sampleThreatB 9) :=
    upsert_conflict_fields (upsertThreat sampleThreatA 5 emptyDB) sampleThreatB 9
      1 (newThreatRow sampleThreatA 5) (by decide)
  rw [h]
  rfl

theorem pyOrStr_self (x : String) : pyOrStr x "" = x := by
  rw [pyOrStr]; split <;> simp_all

theorem pyOrStr_of_ne (x d : String) (h : x ≠ "") : pyOrStr x d = x := by
  rw [pyOrStr, if_neg h]

theorem pyOrInt_of_ne (x d : Int) (h : x ≠ 0) : pyOrInt x d = x := by
  rw [pyOrInt, if_neg h]

theorem pyOrRat_self (x : Rat) : pyOrRat x 0 = x := by
  rw [pyOrRat]; split <;> simp_all

theorem jsonDumps_ne_empty (l : List String) : ¬jsonDumps l = "" := by
  cases l with
  | nil => decide
  | cons x xs =>
    intro h
    have hd := congrArg String.data h
    simp [jsonDumps] at hd

/-- The validity conditions the specification imposes on a stored
`ThreatRecord` (§3): the source-reliability rating lies in A–F, the
information-credibility rating in 1–6 and the priority category in the
fixed enumeration. -/
def ValidThreat (t : ThreatRecord) : Prop :=
  t.admiralty_source_reliability ∈ (["A", "B", "C", "D", "E", "F"] : List String) ∧
  1 ≤ t.admiralty_info_credibility ∧ t.admiralty_info_credibility ≤ 6 ∧
  t.priority_level ∈ (["critical", "high", "medium", "low", "watchlist"] : List String)

instance : DecidablePred ValidThreat := fun _ =>
  inferInstanceAs (Decidable (_ ∧ _))

/-- Reading back a freshly inserted row realizes the record unchanged
except for `search_content`, which `_row_to_threat` never reconstructs. -/
theorem rowToThreat_newThreatRow (t : ThreatRecord) (now : Nat) (hv : ValidThreat t) :
    rowToThreat (newThreatRow t now) = { t with search_content := "" } := by
  obtain ⟨hv1, hv2, hv3, hv4⟩ := hv
  have hasr : t.admiralty_source_reliability ≠ "" := by
    intro he; rw [he] at hv1; exact absurd hv1 (by decide)
  have hprio : t.priority_level ≠ "" := by
    intro he; rw [he] at hv4; exact absurd hv4 (by decide)
  have haic : t.admiralty_info_credibility ≠ 0 := by omega
  obtain ⟨i, sty, sn, su, ti, sm, pu, cu, cv, c3, ep, epp, kl, exs, asr, aic,
    pl, rs, vc, vm, vt, acj, aem, dk, sc⟩ := t
  simp only [rowToThreat, newThreatRow] at *
  simp [pyOrStr_self, pyOrRat_self, pyOrStr_of_ne _ _ hasr, pyOrStr_of_ne _ _ hprio,
    pyOrInt_of_ne _ _ haic, jsonDumps_ne_empty, jsonLoads_dumps]

/-- C3: the round-trip `write(r); read(r.id) == r` does NOT hold for every
valid record on every state: on an id conflict the five non-rewritten
columns (C1) survive, and the `search_content` field is never read back.
The amended statement proved here: for every valid `ThreatRecord` with
empty `search_content` whose id is not yet stored, `get_threat` after
`upsert_threat` returns the record field-for-field (timestamps exact,
hence equal at second precision). -/
theorem threat_roundtrip (st : DBState) (t : ThreatRecord) (now : Nat)
    (hv : ValidThreat t) (hs : t.search_content = "")
    (hfresh : findRow t.id st = none) :
    getThreat t.id (upsertThreat t now st) = some t := by
  unfold upsertThreat
  rw [hfresh]
  unfold getThreat findRow
  show ((st.threats ++ [(st.nextRowid, newThreatRow t now)]).find? _).map _ = _
  rw [List.find?_append]
  rw [show st.threats.find? (fun x => x.2.id = t.id) = none from hfresh]
  rw [Option.none_or]
  rw [List.find?_cons_of_pos _ (by simp [newThreatRow])]
  simp only [Option.map_some']
  rw [rowToThreat_newThreatRow t now hv]
  rw [show ({ t with search_content := "" } : ThreatRecord) = t from by
    obtain ⟨⟩ := t; simp_all]

/-- The second observation of `t1` again, now also carrying a non-empty
`search_content` (as `ThreatRecord.from_dict` would populate it). -/
def sampleThreatC : ThreatRecord :=
  { sampleThreatB with search_content := "Beta advisory second CVE-2024-9999" }

/-- C3 counterexample: upserting `sampleThreatC` over the existing `t1`
row and reading it back does not return `sampleThreatC`: the conflict arm
keeps the old `published_utc`, `collected_utc`, admiralty ratings and
`dedupe_key`, and `search_content` comes back empty. -/
theorem threat_roundtrip_cex :
    getThreat "t1" (upsertThreat sampleThreatC 9 (upsertThreat sampleThreatA 5 emptyDB))
      ≠ some sampleThreatC := by
  decide

/-- C3 witness: the amended round-trip evaluated at a concrete fresh
insert. -/
theorem threat_roundtrip_witness :
    getThreat "t1" (upsertThreat sampleThreatA 5 emptyDB) = some sampleThreatA := by
  have h : getThreat "t1" (upsertThreat sampleThreatA 5 emptyDB) = some sampleThreatA :=
    threat_roundtrip emptyDB sampleThreatA 5 (by decide) rfl rfl
  exact h

theorem find?_decomp {α : Type} (p : α → Bool) :
    ∀ (l : List α) (x : α), l.find? p = some x →
      ∃ l1 l2, l = l1 ++ x :: l2 ∧ ∀ y ∈ l1, ¬p y = true := by
  intro l
  induction l with
  | nil => intro x h; simp at h
  | cons a as ih =>
    intro x h
    by_cases ha : p a = true
    · rw [List.find?_cons_of_pos as ha] at h
      cases h
      exact ⟨[], as, by simp⟩
    · rw [List.find?_cons_of_neg as ha] at h
      obtain ⟨l1, l2, heq, hnone⟩ := ih x h
      exact ⟨a :: l1, l2, by simp [heq], by
        intro y hy
        rcases List.mem_cons.mp hy with rfl | hy
        · exact ha
        · exact hnone y hy⟩

theorem map_if_id (i : String) (r : ThreatRow) :
    ∀ (l : List (Nat × ThreatRow)), (∀ x ∈ l, ¬x.2.id = i) →
      l.map (fun x => if x.2.id = i then (x.1, r) else x) = l := by
  intro l
  induction l with
  | nil => intro _; rfl
  | cons a as ih =>
    intro h
    simp only [List.map_cons, if_neg (h a (List.mem_cons_self a as))]
    rw [ih (fun x hx => h x (List.mem_cons_of_mem a hx))]

/-- The new database is synchronized: both the threats table and the FTS
index are empty. -/
theorem ftsInv_empty : FtsInv emptyDB := ⟨List.Perm.refl _, List.nodup_nil⟩

theorem upsertThreat_insert_eq (t : ThreatRecord) (now : Nat) (st : DBState)
    (hfind : findRow t.id st = none) :
    upsertThreat t now st =
      { st with
        threats := st.threats ++ [(st.nextRowid, newThreatRow t now)],
        nextRowid := st.nextRowid + 1,
        fts := st.fts ++ [entryOfRow (st.nextRowid, newThreatRow t now)] } := by
  unfold upsertThreat
  rw [hfind]

theorem upsertThreat_update_eq (t : ThreatRecord) (now : Nat) (st : DBState)
    (rid : Nat) (old : ThreatRow) (hfind : findRow t.id st = some (rid, old)) :
    upsertThreat t now st =
      { st with
        threats := st.threats.map
          (fun x => if x.2.id = t.id then (x.1, updThreatRow old t now) else x),
        fts := st.fts.erase (entryOfRow (rid, old))
          ++ [entryOfRow (rid, updThreatRow old t now)] } := by
  unfold upsertThreat
  rw [hfind]

theorem deleteThreat_eq (i : String) (st : DBState)
    (rid : Nat) (old : ThreatRow) (hfind : findRow i st = some (rid, old)) :
    deleteThreat i st =
      { st with
        threats := st.threats.filter (fun x => ¬x.2.id = i),
        fts := st.fts.erase (entryOfRow (rid, old)) } := by
  unfold deleteThreat
  rw [hfind]

theorem ftsInv_upsert (t : ThreatRecord) (now : Nat) (st : DBState)
    (h : FtsInv st) : FtsInv (upsertThreat t now st) := by
  obtain ⟨hperm, hnodup⟩ := h
  cases hfind : findRow t.id st with
  | none =>
    rw [upsertThreat_insert_eq t now st hfind]
    have hnotin : ∀ x ∈ st.threats, ¬x.2.id = t.id := by
      intro x hx
      have := List.find?_eq_none.mp hfind x hx
      simpa using this
    constructor
    · show (st.fts ++ _).Perm ((st.threats ++ _).map entryOfRow)
      rw [List.map_append]
      exact hperm.append_right _
    · show ((st.threats ++ _).map _).Nodup
      rw [List.map_append, List.nodup_append]
      refine ⟨hnodup, by simp, ?_⟩
      intro a ha hb
      simp only [List.map_cons, List.map_nil, List.mem_singleton] at hb
      obtain ⟨x, hx, hxa⟩ := List.mem_map.mp ha
      have hbid : a = t.id := by rw [hb]; rfl
      exact hnotin x hx (by rw [hxa, hbid])
  | some rido =>
    obtain ⟨rid, old⟩ := rido
    rw [upsertThreat_update_eq t now st rid old hfind]
    have hido : old.id = t.id := by
      have := List.find?_some hfind
      simpa using this
    obtain ⟨l1, l2, heq, hl1⟩ := find?_decomp _ st.threats (rid, old) hfind
    have hl1' : ∀ y ∈ l1, ¬y.2.id = t.id := by
      intro y hy
      have := hl1 y hy
      simpa using this
    have hnodup' := hnodup
    rw [heq, List.map_append, List.map_cons, List.nodup_middle] at hnodup'
    have hninl12 : old.id ∉ l1.map (fun x => x.2.id) ++ l2.map (fun x => x.2.id) :=
      (List.nodup_cons.mp hnodup').1
    have hl2' : ∀ y ∈ l2, ¬y.2.id = t.id := by
      intro y hy hyid
      apply hninl12
      exact List.mem_append.mpr (Or.inr (List.mem_map.mpr ⟨y, hy, by rw [hyid, hido]⟩))
    have hmapped : st.threats.map
        (fun x => if x.2.id = t.id then (x.1, updThreatRow old t now) else x)
        = l1 ++ (rid, updThreatRow old t now) :: l2 := by
      rw [heq, List.map_append, List.map_cons]
      rw [map_if_id _ _ l1 hl1', map_if_id _ _ l2 hl2']
      simp [hido]
    have herase : (st.fts.erase (entryOfRow (rid, old))).Perm
        (l1.map entryOfRow ++ l2.map entryOfRow) := by
      refine (hperm.erase (entryOfRow (rid, old))).trans ?_
      rw [heq, List.map_append, List.map_cons]
      have h3 : (l1.map entryOfRow ++ entryOfRow (rid, old) :: l2.map entryOfRow).Perm
          (entryOfRow (rid, old) :: (l1.map entryOfRow ++ l2.map entryOfRow)) :=
        List.perm_middle
      have h4 := h3.erase (entryOfRow (rid, old))
      rw [List.erase_cons_head] at h4
      exact h4
    constructor
    · show (st.fts.erase _ ++ _).Perm ((st.threats.map _).map entryOfRow)
      rw [hmapped, List.map_append, List.map_cons]
      refine (herase.append_right _).trans ?_
      refine (List.perm_append_singleton _ _).trans ?_
      exact List.perm_middle.symm
    · show ((st.threats.map _).map _).Nodup
      rw [hmapped, List.map_append, List.map_cons]
      rw [heq, List.map_append, List.map_cons] at hnodup
      have hnid : (updThreatRow old t now).id = old.id := by simp [updThreatRow]
      rw [show (rid, updThreatRow old t now).2.id = (rid, old).2.id from hnid]
      exact hnodup

theorem ftsInv_delete (i : String) (st : DBState) (h : FtsInv st) :
    FtsInv (deleteThreat i st) := by
  obtain ⟨hperm, hnodup⟩ := h
  cases hfind : findRow i st with
  | none =>
    unfold deleteThreat
    rw [hfind]
    exact ⟨hperm, hnodup⟩
  | some rido =>
    obtain ⟨rid, old⟩ := rido
    rw [deleteThreat_eq i st rid old hfind]
    have hido : old.id = i := by
      have := List.find?_some hfind
      simpa using this
    obtain ⟨l1, l2, heq, hl1⟩ := find?_decomp _ st.threats (rid, old) hfind
    have hl1' : ∀ y ∈ l1, ¬y.2.id = i := by
      intro y hy
      have := hl1 y hy
      simpa using this
    have hnodup' := hnodup
    rw [heq, List.map_append, List.map_cons, List.nodup_middle] at hnodup'
    have hninl12 : old.id ∉ l1.map (fun x => x.2.id) ++ l2.map (fun x => x.2.id) :=
      (List.nodup_cons.mp hnodup').1
    have hl2' : ∀ y ∈ l2, ¬y.2.id = i := by
      intro y hy hyid
      apply hninl12
      exact List.mem_append.mpr (Or.inr (List.mem_map.mpr ⟨y, hy, by rw [hyid, hido]⟩))
    have hfiltered : st.threats.filter (fun x => ¬x.2.id = i) = l1 ++ l2 := by
      rw [heq, List.filter_append, List.filter_cons]
      rw [if_neg (by simp [hido])]
      rw [List.filter_eq_self.mpr (by intro a ha; simpa using hl1' a ha),
        List.filter_eq_self.mpr (by intro a ha; simpa using hl2' a ha)]
    have herase : (st.fts.erase (entryOfRow (rid, old))).Perm
        (l1.map entryOfRow ++ l2.map entryOfRow) := by
      refine (hperm.erase (entryOfRow (rid, old))).trans ?_
      rw [heq, List.map_append, List.map_cons]
      have h3 : (l1.map entryOfRow ++ entryOfRow (rid, old) :: l2.map entryOfRow).Perm
          (entryOfRow (rid, old) :: (l1.map entryOfRow ++ l2.map entryOfRow)) :=
        List.perm_middle
      have h4 := h3.erase (entryOfRow (rid, old))
      rw [List.erase_cons_head] at h4
      exact h4
    constructor
    · show (st.fts.erase _).Perm ((st.threats.filter _).map entryOfRow)
      rw [hfiltered, List.map_append]
      exact herase
    · show ((st.threats.filter _).map _).Nodup
      rw [hfiltered]
      refine hnodup.sublist ?_
      rw [heq]
      exact ((List.sublist_cons_self (rid, old) l2).append_left l1).map _

theorem ftsInv_applyOps (ops : List DBOp) : FtsInv (applyOps ops emptyDB) := by
  suffices h : ∀ st, FtsInv st → FtsInv (applyOps ops st) from h emptyDB ftsInv_empty
  induction ops with
  | nil => intro st h; exact h
  | cons op rest ih =>
    intro st h
    show FtsInv (applyOps rest (applyOp st op))
    apply ih
    cases op with
    | upsert t now => exact ftsInv_upsert t now st h
    | del i => exact ftsInv_delete i st h

theorem countP_map_const {α β : Type} (q : β → Bool) (v : β) (l : List α) :
    ((l.map (fun _ => v)).countP q) = if q v then l.length else 0 := by
  induction l with
  | nil => simp
  | cons a as ih =>
    simp only [List.map_cons, List.countP_cons, ih]
    by_cases hq : q v = true <;> simp [hq]

theorem countHits_formula (p : FtsEntry → Bool) (i : String)
    (fts : List FtsEntry) :
    ∀ thr : List (Nat × ThreatRow),
      (thr.flatMap (fun x => (fts.filter (fun e => e.id = x.2.id && p e)).map
          (fun _ => x.2))).countP (fun t => t.id = i)
      = thr.countP (fun x => x.2.id = i) * fts.countP (fun e => e.id = i && p e) := by
  intro thr
  induction thr with
  | nil => simp
  | cons x xs ih =>
    rw [List.flatMap_cons, List.countP_append, ih, List.countP_cons]
    by_cases hx : x.2.id = i
    · rw [countP_map_const]
      rw [if_pos (by simpa using hx)]
      rw [show (fun e => e.id = x.2.id && p e) = (fun e => e.id = i && p e) from by
        funext e; rw [hx]]
      rw [if_pos (by simpa using hx)]
      simp only [List.countP_eq_length_filter]
      ring
    · rw [countP_map_const, if_neg (by simpa using hx), if_neg (by simpa using hx)]
      ring

theorem countP_id_le_one (i : String) :
    ∀ thr : List (Nat × ThreatRow), (thr.map (fun x => x.2.id)).Nodup →
      thr.countP (fun x => x.2.id = i) ≤ 1 := by
  intro thr
  induction thr with
  | nil => intro _; simp
  | cons x xs ih =>
    intro h
    rw [List.map_cons, List.nodup_cons] at h
    rw [List.countP_cons]
    by_cases hx : x.2.id = i
    · have hzero : xs.countP (fun x => x.2.id = i) = 0 := by
        rw [List.countP_eq_zero]
        intro a ha hpa
        apply h.1
        exact List.mem_map.mpr ⟨a, ha, by rw [of_decide_eq_true hpa, hx]⟩
      rw [hzero, if_pos (by simpa using hx)]
    · have hxd : (decide (x.2.id = i)) = false := by simpa using hx
      have := ih h.2
      rw [hxd]
      simp only [Bool.false_eq_true, if_false]
      omega

/-- The hit count for one identifier in a synchronized state: one when the
row exists and its indexed entry matches, zero otherwise. -/
theorem countHits_eq (st : DBState) (h : FtsInv st) (p : FtsEntry → Bool) (i : String) :
    countHits p i st
      = if st.threats.any (fun x => x.2.id = i && p (entryOfRow x)) then 1 else 0 := by
  obtain ⟨hperm, hnodup⟩ := h
  unfold countHits searchHits
  rw [countHits_formula]
  have hfts : st.fts.countP (fun e => e.id = i && p e)
      = st.threats.countP (fun x => x.2.id = i && p (entryOfRow x)) := by
    rw [hperm.countP_eq, List.countP_map]
    rfl
  rw [hfts]
  have hA := countP_id_le_one i st.threats hnodup
  have hBA : st.threats.countP (fun x => x.2.id = i && p (entryOfRow x))
      ≤ st.threats.countP (fun x => x.2.id = i) := by
    apply List.countP_mono_left
    intro x _ hx
    exact (Bool.and_elim_left hx)
  by_cases hany : st.threats.any (fun x => x.2.id = i && p (entryOfRow x)) = true
  · rw [if_pos hany]
    obtain ⟨x, hx, hpx⟩ := List.any_eq_true.mp hany
    have hBpos : 0 < st.threats.countP (fun x => x.2.id = i && p (entryOfRow x)) :=
      List.countP_pos_iff.mpr ⟨x, hx, hpx⟩
    have hAone : st.threats.countP (fun x => x.2.id = i) = 1 := by omega
    have hBone : st.threats.countP (fun x => x.2.id = i && p (entryOfRow x)) = 1 := by omega
    rw [hAone, hBone]
  · rw [if_neg hany]
    have hBzero : st.threats.countP (fun x => x.2.id = i && p (entryOfRow x)) = 0 := by
      rw [List.countP_eq_zero]
      intro a ha hpa
      exact hany (List.any_eq_true.mpr ⟨a, ha, hpa⟩)
    rw [hBzero]
    ring

/-- C2: for every sequence of insert, update and delete operations on
Threat rows starting from the fresh database, the FTS index stays exactly
synchronized with the `threats` table: for any FTS5 match semantics `p`
(matching is a function of the indexed entry `(id, title, summary, cves,
source_name)` only) and any identifier, the number of full-text hits
realizing that record is 1 while a row with that identifier exists and its
indexed entry matches, and 0 otherwise — in particular, with `p` reading
"the query string occurs in the indexed title", the count is 1 while the
record exists with a title containing the query and drops to 0 after the
record is deleted or its title is changed to no longer contain it.  (The
relevance ordering and `LIMIT` presentation of `search_threats` are not
modelled; the count is over the join's row set.) -/
theorem fts_sync_hit_counts (ops : List DBOp) (p : FtsEntry → Bool) (q : String)
    (i : String) :
    (countHits p i (applyOps ops emptyDB)
      = if (applyOps ops emptyDB).threats.any
            (fun x => x.2.id = i && p (entryOfRow x)) then 1 else 0) ∧
    (countHits (fun e => hasSub q.data e.title.data) i (applyOps ops emptyDB)
      = if (applyOps ops emptyDB).threats.any
            (fun x => x.2.id = i && hasSub q.data x.2.title.data) then 1 else 0) :=
  ⟨countHits_eq (applyOps ops emptyDB) (ftsInv_applyOps ops) p i,
   countHits_eq (applyOps ops emptyDB) (ftsInv_applyOps ops)
     (fun e => hasSub q.data e.title.data) i⟩

/-- C4: the exposure-label filter does NOT implement bare substring
containment of the supplied label over the serialized list: the pattern
built from each label is `'%"' + label + '"%'`, i.e. the label surrounded
by double quotes, matched with SQL `LIKE` semantics.  A supplied label
that is merely a substring of a stored label — the claim's own example
"AD" inside "RADIUS" — therefore does NOT match (see the counterexample).
The amended statement proved here: every returned threat has a stored row
whose serialized `affected_crown_jewels` column LIKE-matches the quoted
pattern of some supplied label, and conversely every such row is returned
(when the matches fit the limit). -/
theorem crown_jewels_filter (cjs : List String) (limit : Nat) (st : DBState) :
    (∀ r ∈ getThreatsAffectingCrownJewels cjs limit st,
       ∃ x ∈ st.threats, r = rowToThreat x.2 ∧
         ∃ cj ∈ cjs, sqlLike (cjPattern cj) x.2.affected_crown_jewels = true) ∧
    (((st.threats.map Prod.snd).filter
        (fun t => cjs.any (fun cj => sqlLike (cjPattern cj) t.affected_crown_jewels))).length
          ≤ limit →
      ∀ x ∈ st.threats,
        (∃ cj ∈ cjs, sqlLike (cjPattern cj) x.2.affected_crown_jewels = true) →
        rowToThreat x.2 ∈ getThreatsAffectingCrownJewels cjs limit st) := by
  refine ⟨?_, ?_⟩
  · intro r hr
    unfold getThreatsAffectingCrownJewels at hr
    obtain ⟨row, hrow, hrt⟩ := List.mem_map.mp hr
    have hrow2 : row ∈ List.insertionSort prioOrder
        ((st.threats.map Prod.snd).filter
          (fun t => cjs.any (fun cj => sqlLike (cjPattern cj) t.affected_crown_jewels))) :=
      List.mem_of_mem_take hrow
    rw [List.mem_insertionSort] at hrow2
    obtain ⟨hmem, hpred⟩ := List.mem_filter.mp hrow2
    obtain ⟨x, hx, hxr⟩ := List.mem_map.mp hmem
    obtain ⟨cj, hcj, hlike⟩ := List.any_eq_true.mp hpred
    exact ⟨x, hx, by rw [← hrt, hxr], cj, hcj, by rw [hxr]; exact hlike⟩
  · intro hlen x hx hcj
    unfold getThreatsAffectingCrownJewels
    apply List.mem_map_of_mem rowToThreat
    have hsortlen : (List.insertionSort prioOrder
        ((st.threats.map Prod.snd).filter
          (fun t => cjs.any (fun cj => sqlLike (cjPattern cj) t.affected_crown_jewels)))).length
          ≤ limit := by
      rw [(List.perm_insertionSort prioOrder _).length_eq]
      exact hlen
    rw [List.take_of_length_le hsortlen]
    rw [List.mem_insertionSort]
    apply List.mem_filter.mpr
    refine ⟨List.mem_map_of_mem Prod.snd hx, ?_⟩
    apply List.any_eq_true.mpr
    obtain ⟨cj, hcj, hlike⟩ := hcj
    exact ⟨cj, hcj, hlike⟩

/-- A stored threat whose affected-label list is exactly `["RADIUS"]`. -/
def sampleThreatRADIUS : ThreatRecord :=
  { sampleThreatA with id := "t4", affected_crown_jewels := ["RADIUS"] }

/-- A stored threat whose affected-label list contains the label `AD`. -/
def sampleThreatAD : ThreatRecord :=
  { sampleThreatA with id := "t3", affected_crown_jewels := ["AD", "VPN"] }

/-- C4 counterexample: the supplied label `AD` IS a substring of the
serialized stored list `["RADIUS"]`, yet the filter returns nothing — the
claimed substring-containment semantics (and its claimed AD/RADIUS false
positive) is not what the code does. -/
theorem crown_jewels_filter_cex :
    hasSub "AD".data (jsonDumps ["RADIUS"]).data = true ∧
    (upsertThreat sampleThreatRADIUS 5 emptyDB).threats.map
        (fun x => x.2.affected_crown_jewels) = [jsonDumps ["RADIUS"]] ∧
    getThreatsAffectingCrownJewels ["AD"] 50
      (upsertThreat sampleThreatRADIUS 5 emptyDB) = [] := by
  decide

/-- C4 witness: the amended semantics at a concrete state — a stored row
whose label list contains `AD` literally is returned for the supplied
label set `["AD"]`. -/
theorem crown_jewels_filter_witness :
    rowToThreat (newThreatRow sampleThreatAD 5) ∈
      getThreatsAffectingCrownJewels ["AD"] 50 (upsertThreat sampleThreatAD 5 emptyDB) := by
  have h := (crown_jewels_filter ["AD"] 50 (upsertThreat sampleThreatAD 5 emptyDB)).2
  exact h (by decide) (1, newThreatRow sampleThreatAD 5) (by decide) ⟨"AD", by decide, by decide⟩

theorem find?_map_dep {α : Type} (q : α → Prop) [DecidablePred q] (f : α → α)
    (hf : ∀ x, q x → q (f x)) :
    ∀ (l : List α) (x : α), l.find? (fun y => q y) = some x →
      (l.map (fun y => if q y then f y else y)).find? (fun y => q y) = some (f x) := by
  intro l
  induction l with
  | nil => intro x h; simp at h
  | cons a as ih =>
    intro x h
    by_cases ha : q a
    · rw [List.find?_cons_of_pos as (by simpa using ha)] at h
      cases h
      simp only [List.map_cons, if_pos ha]
      rw [List.find?_cons_of_pos _ (by simpa using hf a ha)]
    · rw [List.find?_cons_of_neg as (by simpa using ha)] at h
      simp only [List.map_cons, if_neg ha]
      rw [List.find?_cons_of_neg _ (by simpa using ha)]
      exact ih x h

/-- After `cache_cve` the row for the cve id is present, with expiry
`now + ttl_hours` (both on the insert and the update arm). -/
theorem cacheCve_find (c : CVERecord) (ttl now : Nat) (st : DBState) :
    ∃ row, (cacheCve c ttl now st).cve_cache.find? (fun r => r.cve_id = c.cve_id)
        = some row ∧ row.cache_expires = some (now + ttl * 3600) := by
  unfold cacheCve
  cases hfind : st.cve_cache.find? (fun r => r.cve_id = c.cve_id) with
  | none =>
    refine ⟨newCveRow c ttl now, ?_, rfl⟩
    show (st.cve_cache ++ _).find? _ = _
    rw [List.find?_append, hfind, Option.none_or]
    rw [List.find?_cons_of_pos _ (by simp [newCveRow])]
  | some old =>
    refine ⟨updCveRow old c ttl now, ?_, rfl⟩
    show (st.cve_cache.map _).find? _ = _
    exact find?_map_dep (fun r => r.cve_id = c.cve_id)
      (fun r => updCveRow r c ttl now)
      (by intro x hx; simpa [updCveRow] using hx) st.cve_cache old hfind

theorem getCve_found (i : String) (now : Nat) (st : DBState) (row : CveRow)
    (h : st.cve_cache.find? (fun r => r.cve_id = i) = some row) :
    getCve i now st =
      if (match row.cache_expires with
          | none => true
          | some e => decide (now < e)) = true
      then some (cveRowToRecord row now) else none := by
  unfold getCve
  rw [h]

theorem getCve_absent (i : String) (now : Nat) (st : DBState)
    (h : st.cve_cache.find? (fun r => r.cve_id = i) = none) :
    getCve i now st = none := by
  unfold getCve
  rw [h]

/-- C5: `get_cve` returns a record exactly when the row exists and its
`cache_expires` is unset or strictly later than the read time; an expired
row is not deleted by the read — after caching with `ttl_hours = 0`
(expiry = write-time `now`) the row is still present in `cve_cache`, yet
every lookup at any time `nowR ≥ now` returns not-found. -/
theorem cve_expiry_read (st : DBState) (c : CVERecord) (now nowR : Nat)
    (h : now ≤ nowR) :
    (∀ i, (getCve i nowR st).isSome = true ↔
        ∃ row, st.cve_cache.find? (fun r => r.cve_id = i) = some row ∧
          (row.cache_expires = none ∨ ∃ e, row.cache_expires = some e ∧ nowR < e)) ∧
    getCve c.cve_id nowR (cacheCve c 0 now st) = none ∧
    (∃ row, (cacheCve c 0 now st).cve_cache.find?
        (fun r => r.cve_id = c.cve_id) = some row) := by
  obtain ⟨row0, hrow0, hexp0⟩ := cacheCve_find c 0 now st
  refine ⟨?_, ?_, ⟨row0, hrow0⟩⟩
  · intro i
    cases hfind : st.cve_cache.find? (fun r => r.cve_id = i) with
    | none =>
      rw [getCve_absent i nowR st hfind]
      simp
    | some row =>
      rw [getCve_found i nowR st row hfind]
      cases hexp : row.cache_expires with
      | none => simp [hexp]
      | some e => by_cases hlt : nowR < e <;> simp [hexp, hlt]
  · rw [getCve_found c.cve_id nowR (cacheCve c 0 now st) row0 hrow0, hexp0]
    have hcond : (decide (nowR < now + 0 * 3600)) = false := by
      simp only [decide_eq_false_iff_not]
      omega
    simp [hcond]
    omega

/-- A sample CVE enrichment record carrying values in every column that
`get_cve` does not read back. -/
def cveSample : CVERecord :=
  { cve_id := "CVE-2024-1", cvss_v3_score := some 9, epss_score := some 1,
    kev_listed := true, kev_date_added := some 77, kev_due_date := some 99,
    description := "remote code execution",
    affected_products := ["router"], references := ["http://ref"],
    published_date := some 11, last_modified := some 22,
    cached_at := 0, cache_expires := some 123 }

/-- C5 witness: a CVE cached with `ttl_hours = 0` at time 3 is unreadable
at time 5, although its row is still stored. -/
theorem cve_expiry_read_witness :
    getCve "CVE-2024-1" 5 (cacheCve cveSample 0 3 emptyDB) = none :=
  (cve_expiry_read emptyDB cveSample 3 5 (by decide)).2.1

/-- C6: `cleanup_expired` retains exactly the `cve_cache` and
`verification_cache` rows whose expiry is unset or at/after the wall-clock
time of the sweep (equivalently, it deletes exactly the rows with expiry
strictly in the past; a `NULL` expiry never compares below the clock), and
leaves the `threats` and `feed_metrics` tables (and the FTS index)
untouched. -/
theorem cleanup_expired_exact (now : Nat) (st : DBState) :
    (∀ r : CveRow, r ∈ (cleanupExpired now st).cve_cache ↔
        r ∈ st.cve_cache ∧
          (r.cache_expires = none ∨ ∃ e, r.cache_expires = some e ∧ now ≤ e)) ∧
    (∀ v : VerifRow, v ∈ (cleanupExpired now st).verification_cache ↔
        v ∈ st.verification_cache ∧
          (v.cache_expires = none ∨ ∃ e, v.cache_expires = some e ∧ now ≤ e)) ∧
    (cleanupExpired now st).threats = st.threats ∧
    (cleanupExpired now st).feed_metrics = st.feed_metrics ∧
    (cleanupExpired now st).fts = st.fts := by
  refine ⟨?_, ?_, rfl, rfl, rfl⟩
  · intro r
    unfold cleanupExpired
    rw [List.mem_filter]
    constructor
    · rintro ⟨hmem, hcond⟩
      refine ⟨hmem, ?_⟩
      cases hexp : r.cache_expires with
      | none => exact Or.inl rfl
      | some e =>
        refine Or.inr ⟨e, rfl, ?_⟩
        rw [hexp] at hcond
        simp [expiredBefore] at hcond
        omega
    · rintro ⟨hmem, hcond⟩
      refine ⟨hmem, ?_⟩
      rcases hcond with hnone | ⟨e, hsome, hle⟩
      · simp [expiredBefore, hnone]
      · simp [expiredBefore, hsome]
        omega
  · intro v
    unfold cleanupExpired
    rw [List.mem_filter]
    constructor
    · rintro ⟨hmem, hcond⟩
      refine ⟨hmem, ?_⟩
      cases hexp : v.cache_expires with
      | none => exact Or.inl rfl
      | some e =>
        refine Or.inr ⟨e, rfl, ?_⟩
        rw [hexp] at hcond
        simp [expiredBefore] at hcond
        omega
    · rintro ⟨hmem, hcond⟩
      refine ⟨hmem, ?_⟩
      rcases hcond with hnone | ⟨e, hsome, hle⟩
      · simp [expiredBefore, hnone]
      · simp [expiredBefore, hsome]
        omega

/-- The record returned by `get_cve` always comes from
`cveRowToRecord` evaluated at the read time. -/
theorem getCve_some_shape (i : String) (now : Nat) (st : DBState) (rec : CVERecord)
    (h : getCve i now st = some rec) :
    ∃ row, rec = cveRowToRecord row now := by
  cases hfind : st.cve_cache.find? (fun r => r.cve_id = i) with
  | none => rw [getCve_absent i now st hfind] at h; cases h
  | some row =>
    rw [getCve_found i now st row hfind] at h
    by_cases hc : (match row.cache_expires with
        | none => true
        | some e => decide (now < e)) = true
    · rw [if_pos hc] at h
      exact ⟨row, (Option.some.inj h).symm⟩
    · rw [if_neg hc] at h
      cases h

/-- C10: whatever `cache_cve` wrote, a successful (non-expired) `get_cve`
lookup returns a record whose `kev_date_added`, `kev_due_date`,
`published_date`, `last_modified` and `cache_expires` fields are `None`
and whose `cached_at` is the dataclass default freshly evaluated at read
time — these columns are not round-tripped by the constructor call in
`get_cve`. -/
theorem get_cve_fields (st : DBState) (c : CVERecord) (ttl now nowR : Nat)
    (rec : CVERecord)
    (h : getCve c.cve_id nowR (cacheCve c ttl now st) = some rec) :
    rec.kev_date_added = none ∧ rec.kev_due_date = none ∧
    rec.published_date = none ∧ rec.last_modified = none ∧
    rec.cache_expires = none ∧ rec.cached_at = nowR := by
  obtain ⟨row, hrow⟩ := getCve_some_shape c.cve_id nowR (cacheCve c ttl now st) rec h
  rw [hrow]
  exact ⟨rfl, rfl, rfl, rfl, rfl, rfl⟩

/-- C10 witness: the dropped fields observed on a concrete cached record
that carried values in all of them. -/
theorem get_cve_fields_witness :
    (getCve "CVE-2024-1" 5 (cacheCve cveSample 24 3 emptyDB)).map
        (fun r => (r.cached_at, r.kev_date_added, r.kev_due_date,
                   r.published_date, r.last_modified, r.cache_expires))
      = some (5, none, none, none, none, none) := by
  rcases hx : getCve "CVE-2024-1" 5 (cacheCve cveSample 24 3 emptyDB) with _ | rec
  · exact absurd hx (by decide)
  · obtain ⟨h1, h2, h3, h4, h5, h6⟩ := get_cve_fields emptyDB cveSample 24 3 5 rec hx
    simp [h1, h2, h3, h4, h5, h6]

theorem rowToThreat_risk (row : ThreatRow) :
    (rowToThreat row).risk_score = row.risk_score := pyOrRat_self _

theorem rowToThreat_pub (row : ThreatRow) :
    (rowToThreat row).published_utc = row.published_utc := rfl

/-- C7: `get_threats_by_priority` returns only records with the requested
priority whose published timestamp lies in the recency window, ordered by
risk score descending with ties broken by published timestamp descending:
pairwise, an earlier element has strictly higher risk, or equal risk and a
published timestamp no earlier than the later element's (so among records
with equal risk the later-published one precedes). -/
theorem threats_by_priority_query (p : String) (limit since_hours now : Nat)
    (st : DBState)
    (hp : p ∈ (["critical", "high", "medium", "low", "watchlist"] : List String)) :
    (getThreatsByPriority (some p) limit since_hours now st).Pairwise
      (fun a b => b.risk_score < a.risk_score ∨
        (a.risk_score = b.risk_score ∧ b.published_utc ≤ a.published_utc)) ∧
    ∀ r ∈ getThreatsByPriority (some p) limit since_hours now st,
      r.priority_level = p ∧ now - since_hours * 3600 ≤ r.published_utc := by
  have hpne : p ≠ "" := by
    intro he; rw [he] at hp; exact absurd hp (by decide)
  constructor
  · unfold getThreatsByPriority
    rw [List.pairwise_map]
    have hsorted := List.sorted_insertionSort prioOrder
      ((st.threats.map Prod.snd).filter
        (fun t => (match some p with
                   | some p => t.priority_level = p
                   | none => true) && decide (now - since_hours * 3600 ≤ t.published_utc)))
    have htake := List.Pairwise.sublist (List.take_sublist limit _) hsorted
    refine htake.imp ?_
    intro a b hab
    rw [show (rowToThreat b).risk_score = b.risk_score from rowToThreat_risk b,
      show (rowToThreat a).risk_score = a.risk_score from rowToThreat_risk a]
    exact hab
  · intro r hr
    unfold getThreatsByPriority at hr
    obtain ⟨row, hrow, hrt⟩ := List.mem_map.mp hr
    have hrow2 := List.mem_of_mem_take hrow
    rw [List.mem_insertionSort] at hrow2
    obtain ⟨_, hpred⟩ := List.mem_filter.mp hrow2
    rw [Bool.and_eq_true] at hpred
    obtain ⟨hprio, hsince⟩ := hpred
    have hprio' : row.priority_level = p := by simpa using hprio
    have hsince' : now - since_hours * 3600 ≤ row.published_utc := by simpa using hsince
    subst hrt
    constructor
    · show pyOrStr row.priority_level "medium" = p
      rw [hprio', pyOrStr_of_ne _ _ hpne]
    · exact hsince'

/-- C7 witness: the sorted-and-filtered query evaluated at a concrete
state. -/
theorem threats_by_priority_query_witness :
    (getThreatsByPriority (some "critical") 100 24 10000
        (upsertThreat sampleThreatA 9999 emptyDB)).Pairwise
      (fun a b => b.risk_score < a.risk_score ∨
        (a.risk_score = b.risk_score ∧ b.published_utc ≤ a.published_utc)) :=
  (threats_by_priority_query "critical" 100 24 10000
    (upsertThreat sampleThreatA 9999 emptyDB) (by decide)).1

/-- C8: `get_kev_threats` never returns a record whose exploited flag is
false — every returned record has `kev_listed` — and its output is
ordered by published timestamp descending only: pairwise, an earlier
element's published timestamp is no earlier than a later element's,
with the risk score playing no role in the comparison. -/
theorem kev_threats_query (limit : Nat) (st : DBState) :
    (∀ r ∈ getKevThreats limit st, r.kev_listed = true) ∧
    (getKevThreats limit st).Pairwise
      (fun a b => b.published_utc ≤ a.published_utc) := by
  constructor
  · intro r hr
    unfold getKevThreats at hr
    obtain ⟨row, hrow, hrt⟩ := List.mem_map.mp hr
    have hrow2 := List.mem_of_mem_take hrow
    rw [List.mem_insertionSort] at hrow2
    obtain ⟨_, hpred⟩ := List.mem_filter.mp hrow2
    have hkev : row.kev_listed = 1 := by simpa using hpred
    subst hrt
    show decide (row.kev_listed ≠ 0) = true
    rw [hkev]
    decide
  · unfold getKevThreats
    rw [List.pairwise_map]
    have hsorted := List.sorted_insertionSort pubOrder
      ((st.threats.map Prod.snd).filter (fun t => t.kev_listed = 1))
    have htake := List.Pairwise.sublist (List.take_sublist limit _) hsorted
    exact htake.imp (fun hab => hab)

/-- C9: `get_threat_stats` counts per-priority records in the window, the
KEV-flagged records in the window, the records whose exploitation
probability is AT OR ABOVE the 0.7 threshold (the SQL filter is
`epss_score >= 0.7`, not strictly greater — see the counterexample), and
the total records in the window, where the window is
`published_utc >= utcnow() - since_hours`. -/
theorem threat_stats_counts (since_hours now : Nat) (st : DBState) :
    (∀ p, statsPrioCount p (now - since_hours * 3600) st
      = st.threats.countP (fun x =>
          decide (x.2.priority_level = p ∧
            now - since_hours * 3600 ≤ x.2.published_utc))) ∧
    (getThreatStats since_hours now st).critical_count
      = statsPrioCount "critical" (now - since_hours * 3600) st ∧
    (getThreatStats since_hours now st).high_count
      = statsPrioCount "high" (now - since_hours * 3600) st ∧
    (getThreatStats since_hours now st).medium_count
      = statsPrioCount "medium" (now - since_hours * 3600) st ∧
    (getThreatStats since_hours now st).low_count
      = statsPrioCount "low" (now - since_hours * 3600) st ∧
    (getThreatStats since_hours now st).watchlist_count
      = statsPrioCount "watchlist" (now - since_hours * 3600) st ∧
    (getThreatStats since_hours now st).kev_count
      = st.threats.countP (fun x =>
          decide (x.2.kev_listed = 1 ∧ now - since_hours * 3600 ≤ x.2.published_utc)) ∧
    (getThreatStats since_hours now st).high_epss_count
      = st.threats.countP (fun x =>
          decide ((∃ v, x.2.epss_score = some v ∧ 7 / 10 ≤ v) ∧
            now - since_hours * 3600 ≤ x.2.published_utc)) ∧
    (getThreatStats since_hours now st).total_count
      = st.threats.countP (fun x =>
          decide (now - since_hours * 3600 ≤ x.2.published_utc)) := by
  refine ⟨?_, rfl, rfl, rfl, rfl, rfl, ?_, ?_, rfl⟩
  · intro p
    apply List.countP_congr
    intro x _
    simp [statsPrioCount]
  · apply List.countP_congr
    intro x _
    simp
  · apply List.countP_congr
    intro x _
    cases hepss : x.2.epss_score with
    | none => simp [hepss]
    | some v => simp [hepss, epssThreshold_eq]

/-- A stored threat whose exploitation-probability score is exactly the
threshold 0.7. -/
def sampleThreatEpss : ThreatRecord :=
  { sampleThreatA with
    id := "t5", epss_score := some epssThreshold, published_utc := 9999 }

/-- C9 counterexample: a record with `epss_score` exactly 0.7 in the
window is counted by `get_threat_stats` (the SQL uses `>= 0.7`), while
the number of stored rows with score strictly greater than 0.7 is zero —
so the claim's "strictly greater than 0.7" reading is false at this
input. -/
theorem threat_stats_cex :
    (getThreatStats 24 10000 (upsertThreat sampleThreatEpss 5 emptyDB)).high_epss_count
      = 1 ∧
    (upsertThreat sampleThreatEpss 5 emptyDB).threats.countP
        (fun x => match x.2.epss_score with
                  | some v => decide (epssThreshold < v)
                  | none => false) = 0 ∧
    epssThreshold = 7 / 10 :=
  ⟨by decide, by decide, epssThreshold_eq⟩
